import Mathlib

/-!
Shallow embedding of the mlop ingestion gateway (Rust) used to check the
natural-language specification against the code.  Each definition mirrors one
function or data type of the source tree (`src/error.rs`, `src/utils.rs`,
`src/auth.rs`, `src/models/*.rs`, `src/processors/*.rs`, `src/routes/*.rs`);
the doc comment of every definition names the source item it embeds.
Strings are Lean `String`s, byte streams are `List Nat` (byte values),
machine integers are `Nat` (u64 parsing checks the `2^64` bound explicitly),
and `f64` is modelled by an inductive that distinguishes finite values from
NaN and the infinities, which is all the code inspects.
-/

/-- Model of Rust `f64` as used by the code: the code only distinguishes
finite values from NaN and the two infinities (`f64::is_finite`), so the
finite payload is abstracted as an integer stand-in. -/
inductive F64 where
  | finite (v : Int)
  | nan
  | posInf
  | negInf
deriving DecidableEq, Repr

/-- `f64::is_finite` (true exactly for `F64.finite _`). -/
def F64.isFinite : F64 → Bool
  | .finite _ => true
  | _ => false

/-- Rust `Display` for the modelled `f64` values (`NaN`, `inf`, `-inf`);
finite payload formatting is abstracted as the integer's decimal form. -/
def F64.display : F64 → String
  | .finite v => toString v
  | .nan => "NaN"
  | .posInf => "inf"
  | .negInf => "-inf"

/-- `ErrorCode` from `src/error.rs` (all variants). -/
inductive ErrorCode where
  | authenticationFailed
  | invalidToken
  | missingToken
  | missingTenantId
  | tokenExpired
  | invalidTokenFormat
  | invalidBearerFormat
  | insufficientPermissions
  | invalidInput
  | missingRequiredField
  | invalidJsonFormat
  | invalidHeaderFormat
  | invalidMetricFormat
  | invalidLogFormat
  | invalidTimestamp
  | invalidStepValue
  | processingFailed
  | streamProcessingError
  | batchProcessingError
  | streamDecodingError
  | dataTransformationError
  | bufferOverflowError
  | databaseError
  | insertFailed
  | connectionFailed
  | queryFailed
  | databaseTimeout
  | batchInsertFailed
  | databaseUnavailable
  | internalError
  | serviceUnavailable
  | configurationError
  | resourceExhausted
  | rateLimitExceeded
  | serviceOverloaded
deriving DecidableEq, Repr

/-- The numeric discriminants of `ErrorCode` (`= 1001`, … in `src/error.rs`). -/
def ErrorCode.toNum : ErrorCode → Nat
  | .authenticationFailed => 1001
  | .invalidToken => 1002
  | .missingToken => 1003
  | .missingTenantId => 1004
  | .tokenExpired => 1005
  | .invalidTokenFormat => 1006
  | .invalidBearerFormat => 1007
  | .insufficientPermissions => 1008
  | .invalidInput => 2001
  | .missingRequiredField => 2002
  | .invalidJsonFormat => 2003
  | .invalidHeaderFormat => 2004
  | .invalidMetricFormat => 2005
  | .invalidLogFormat => 2006
  | .invalidTimestamp => 2007
  | .invalidStepValue => 2008
  | .processingFailed => 3001
  | .streamProcessingError => 3002
  | .batchProcessingError => 3003
  | .streamDecodingError => 3004
  | .dataTransformationError => 3005
  | .bufferOverflowError => 3006
  | .databaseError => 4001
  | .insertFailed => 4002
  | .connectionFailed => 4003
  | .queryFailed => 4004
  | .databaseTimeout => 4005
  | .batchInsertFailed => 4006
  | .databaseUnavailable => 4007
  | .internalError => 5001
  | .serviceUnavailable => 5002
  | .configurationError => 5003
  | .resourceExhausted => 5004
  | .rateLimitExceeded => 5005
  | .serviceOverloaded => 5006

/-- `ErrorCode::status_code` from `src/error.rs`, as the numeric HTTP status. -/
def ErrorCode.statusCode : ErrorCode → Nat
  | .authenticationFailed => 401
  | .invalidToken => 401
  | .missingToken => 401
  | .missingTenantId => 401
  | .tokenExpired => 401
  | .invalidTokenFormat => 401
  | .invalidBearerFormat => 401
  | .insufficientPermissions => 403
  | .invalidInput => 400
  | .missingRequiredField => 400
  | .invalidJsonFormat => 400
  | .invalidHeaderFormat => 400
  | .invalidMetricFormat => 400
  | .invalidLogFormat => 400
  | .invalidTimestamp => 400
  | .invalidStepValue => 400
  | .processingFailed => 422
  | .streamProcessingError => 422
  | .batchProcessingError => 422
  | .streamDecodingError => 422
  | .dataTransformationError => 422
  | .bufferOverflowError => 422
  | .databaseError => 503
  | .insertFailed => 503
  | .connectionFailed => 503
  | .queryFailed => 503
  | .databaseTimeout => 504
  | .batchInsertFailed => 503
  | .databaseUnavailable => 503
  | .internalError => 500
  | .serviceUnavailable => 503
  | .configurationError => 500
  | .resourceExhausted => 429
  | .rateLimitExceeded => 429
  | .serviceOverloaded => 503

/-- `ErrorCode::error_type` from `src/error.rs`. -/
def ErrorCode.errorType (c : ErrorCode) : String :=
  let n := c.toNum
  if 1001 ≤ n ∧ n ≤ 1999 then "Authentication Error"
  else if 2001 ≤ n ∧ n ≤ 2999 then "Validation Error"
  else if 3001 ≤ n ∧ n ≤ 3999 then "Processing Error"
  else if 4001 ≤ n ∧ n ≤ 4999 then "Database Error"
  else if 5001 ≤ n ∧ n ≤ 5999 then "System Error"
  else "Unknown Error"

/-- Rust `Debug` name of an `ErrorCode` variant (used by its `Display`). -/
def ErrorCode.debugName : ErrorCode → String
  | .authenticationFailed => "AuthenticationFailed"
  | .invalidToken => "InvalidToken"
  | .missingToken => "MissingToken"
  | .missingTenantId => "MissingTenantId"
  | .tokenExpired => "TokenExpired"
  | .invalidTokenFormat => "InvalidTokenFormat"
  | .invalidBearerFormat => "InvalidBearerFormat"
  | .insufficientPermissions => "InsufficientPermissions"
  | .invalidInput => "InvalidInput"
  | .missingRequiredField => "MissingRequiredField"
  | .invalidJsonFormat => "InvalidJsonFormat"
  | .invalidHeaderFormat => "InvalidHeaderFormat"
  | .invalidMetricFormat => "InvalidMetricFormat"
  | .invalidLogFormat => "InvalidLogFormat"
  | .invalidTimestamp => "InvalidTimestamp"
  | .invalidStepValue => "InvalidStepValue"
  | .processingFailed => "ProcessingFailed"
  | .streamProcessingError => "StreamProcessingError"
  | .batchProcessingError => "BatchProcessingError"
  | .streamDecodingError => "StreamDecodingError"
  | .dataTransformationError => "DataTransformationError"
  | .bufferOverflowError => "BufferOverflowError"
  | .databaseError => "DatabaseError"
  | .insertFailed => "InsertFailed"
  | .connectionFailed => "ConnectionFailed"
  | .queryFailed => "QueryFailed"
  | .databaseTimeout => "DatabaseTimeout"
  | .batchInsertFailed => "BatchInsertFailed"
  | .databaseUnavailable => "DatabaseUnavailable"
  | .internalError => "InternalError"
  | .serviceUnavailable => "ServiceUnavailable"
  | .configurationError => "ConfigurationError"
  | .resourceExhausted => "ResourceExhausted"
  | .rateLimitExceeded => "RateLimitExceeded"
  | .serviceOverloaded => "ServiceOverloaded"

/-- `AppError` from `src/error.rs`; `details` is `None` on every path the
claims touch, so the `serde_json::Value` payload is modelled as a `String`. -/
structure AppError where
  code : ErrorCode
  message : String
  details : Option String := none
deriving DecidableEq, Repr

/-- `AppError::new` from `src/error.rs`. -/
def AppError.new (code : ErrorCode) (message : String) : AppError :=
  { code := code, message := message, details := none }

/-- `Display for AppError` from `src/error.rs`:
`"{code} ({num} - {type}): {message}"`. -/
def AppError.display (e : AppError) : String :=
  s!"{e.code.debugName} ({e.code.toNum} - {e.code.errorType}): {e.message}"

/-- `missing_header_error` from `src/error.rs`. -/
def missing_header_error (headerName : String) : AppError :=
  AppError.new .invalidHeaderFormat s!"Missing required header: {headerName}"

/-- `invalid_auth_error` from `src/error.rs`. -/
def invalid_auth_error (message : String) : AppError :=
  AppError.new .invalidToken message

/-- Rust `u64::from_str` (via `str::parse::<u64>`): an optional leading `+`,
then one or more ASCII digits, rejecting values at or above `2 ^ 64`. -/
def parse_u64 (s : String) : Option Nat :=
  let cs := s.toList
  let cs := match cs with
    | '+' :: rest => rest
    | _ => cs
  if cs = [] then none
  else if cs.all Char.isDigit then
    let v := cs.foldl (fun acc c => acc * 10 + (c.toNat - 48)) 0
    if v < 2 ^ 64 then some v else none
  else none

deriving instance DecidableEq for Except

/-- Rust `str::trim` on a character list: drop leading and trailing
whitespace (the strings the code trims are ASCII apart from user payload
text, where Lean's `Char.isWhitespace` agrees with Rust on the ASCII
whitespace the claims exercise). -/
def rustTrim (cs : List Char) : List Char :=
  ((cs.dropWhile Char.isWhitespace).reverse.dropWhile Char.isWhitespace).reverse

/-- Rust `str::to_lowercase` over the ASCII strings the extension table is
matched against (Unicode lowercasing beyond ASCII is not exercised). -/
def rustToLower (s : String) : String :=
  String.mk (s.toList.map Char.toLower)

/-- Rust `s.trim().is_empty()` as used by the input validators. -/
def trimIsEmpty (s : String) : Bool :=
  (rustTrim s.toList).isEmpty

/-- `log_group_from_log_name` from `src/utils.rs`: everything before the last
`/`, or the empty string when there is no `/`. -/
def log_group_from_log_name (s : String) : String :=
  let cs := s.toList
  match (cs.reverse.findIdx? (· = '/')) with
  | some i => String.mk (cs.take (cs.length - 1 - i))
  | none => ""

/-- The request headers the enrichment extractors read.  A header value is
`some s` when present and convertible by `HeaderValue::to_str` (header values
that pass `to_str` contain only visible ASCII, space and tab); an absent
header is `none`. -/
structure Headers where
  xRunId : Option String
  xProjectName : Option String
  authorization : Option String := none
deriving DecidableEq, Repr

/-- `MetricInput` from `src/models/metrics.rs`; the `HashMap<LogName, f64>`
is modelled as its entry list (one entry per key). -/
structure MetricInput where
  time : Nat
  step : Nat
  data : List (String × F64)
deriving DecidableEq, Repr

/-- The per-entry loop of `MetricInput::validate`: empty trimmed key or
non-finite value aborts with `InvalidMetricFormat`. -/
def validateMetricEntries : List (String × F64) → Except AppError Unit
  | [] => .ok ()
  | (key, value) :: rest =>
    if trimIsEmpty key then
      .error (AppError.new .invalidMetricFormat "metric name cannot be empty")
    else if !value.isFinite then
      .error (AppError.new .invalidMetricFormat
        s!"metric '{key}' has invalid value: {value.display}")
    else validateMetricEntries rest

/-- `MetricInput::validate` from `src/models/metrics.rs`. -/
def MetricInput.validate (i : MetricInput) : Except AppError Unit :=
  if i.data = [] then
    .error (AppError.new .invalidMetricFormat "'data' field cannot be empty")
  else validateMetricEntries i.data

/-- `MetricEnrichment` from `src/models/metrics.rs`. -/
structure MetricEnrichment where
  tenant_id : String
  run_id : Nat
  project_name : String
deriving DecidableEq, Repr

/-- `MetricEnrichment::from_headers` from `src/models/metrics.rs`:
requires `X-Run-Id` and `X-Project-Name`; a present but unparseable
`X-Run-Id` falls back to 0 via `unwrap_or(0)`. -/
def MetricEnrichment.from_headers (tenant_id : String) (headers : Headers) :
    Except AppError MetricEnrichment := do
  let rawRunId ← match headers.xRunId with
    | some v => pure v
    | none => .error (missing_header_error "X-Run-Id")
  let run_id := (parse_u64 rawRunId).getD 0
  let project_name ← match headers.xProjectName with
    | some v => pure v
    | none => .error (missing_header_error "X-Project-Name")
  pure { tenant_id := tenant_id, run_id := run_id, project_name := project_name }

/-- `MetricRow` from `src/models/metrics.rs`. -/
structure MetricRow where
  time : Nat
  step : Nat
  log_group : String
  log_name : String
  value : F64
  tenant_id : String
  run_id : Nat
  project_name : String
deriving DecidableEq, Repr

/-- `IntoRows for MetricInput` (`into_rows`) from `src/models/metrics.rs`:
validate, then one `MetricRow` per entry of `data`, each carrying the cloned
enrichment triple and a recomputed `log_group`. -/
def MetricInput.into_rows (i : MetricInput) (enrichment : MetricEnrichment) :
    Except AppError (List MetricRow) := do
  i.validate
  pure (i.data.map fun (log_name, value) =>
    { time := i.time
      step := i.step
      log_group := log_group_from_log_name log_name
      log_name := log_name
      value := value
      tenant_id := enrichment.tenant_id
      run_id := enrichment.run_id
      project_name := enrichment.project_name })

/-- `LogInput` from `src/models/log.rs`. -/
structure LogInput where
  time : Nat
  message : String
  line_number : Nat
  log_type : String
deriving DecidableEq, Repr

/-- `LogInput::validate` from `src/models/log.rs` (only `logType` is
checked; the `message` check is commented out in the source). -/
def LogInput.validate (i : LogInput) : Except AppError Unit :=
  if trimIsEmpty i.log_type then
    .error (AppError.new .invalidLogFormat "'logType' field cannot be empty")
  else .ok ()

/-- `LogEnrichment` from `src/models/log.rs`. -/
structure LogEnrichment where
  tenant_id : String
  run_id : Nat
  project_name : String
deriving DecidableEq, Repr

/-- `LogEnrichment::from_headers` from `src/models/log.rs` (same
`unwrap_or(0)` fallback as the metric enrichment). -/
def LogEnrichment.from_headers (tenant_id : String) (headers : Headers) :
    Except AppError LogEnrichment := do
  let rawRunId ← match headers.xRunId with
    | some v => pure v
    | none => .error (missing_header_error "X-Run-Id")
  let run_id := (parse_u64 rawRunId).getD 0
  let project_name ← match headers.xProjectName with
    | some v => pure v
    | none => .error (missing_header_error "X-Project-Name")
  pure { tenant_id := tenant_id, run_id := run_id, project_name := project_name }

/-- `LogRow` from `src/models/log.rs`. -/
structure LogRow where
  time : Nat
  message : String
  line_number : Nat
  log_type : String
  tenant_id : String
  run_id : Nat
  project_name : String
deriving DecidableEq, Repr

/-- `DatabaseRow::from` for `LogRow` from `src/models/log.rs`. -/
def LogRow.from (input : LogInput) (enrichment : LogEnrichment) :
    Except AppError LogRow := do
  input.validate
  pure { time := input.time
         message := input.message
         line_number := input.line_number
         log_type := input.log_type
         tenant_id := enrichment.tenant_id
         run_id := enrichment.run_id
         project_name := enrichment.project_name }

/-- The blanket `IntoRows` impl for `SingleRowInput` types
(`src/processors/stream.rs`): a one-element row list. -/
def LogInput.into_rows (i : LogInput) (enrichment : LogEnrichment) :
    Except AppError (List LogRow) := do
  pure [← LogRow.from i enrichment]

/-- `DataInput` from `src/models/data.rs`. -/
structure DataInput where
  time : Nat
  data : String
  step : Nat
  data_type : String
  log_name : String
deriving DecidableEq, Repr

/-- `DataInput::validate` from `src/models/data.rs`. -/
def DataInput.validate (i : DataInput) : Except AppError Unit :=
  if trimIsEmpty i.data_type then
    .error (AppError.new .invalidLogFormat "'dataType' field cannot be empty")
  else if trimIsEmpty i.log_name then
    .error (AppError.new .invalidLogFormat "'logName' field cannot be empty")
  else .ok ()

/-- `DataEnrichment` from `src/models/data.rs`. -/
structure DataEnrichment where
  tenant_id : String
  run_id : Nat
  project_name : String
deriving DecidableEq, Repr

/-- `DataEnrichment::from_headers` from `src/models/data.rs` (same
`unwrap_or(0)` fallback as the metric enrichment). -/
def DataEnrichment.from_headers (tenant_id : String) (headers : Headers) :
    Except AppError DataEnrichment := do
  let rawRunId ← match headers.xRunId with
    | some v => pure v
    | none => .error (missing_header_error "X-Run-Id")
  let run_id := (parse_u64 rawRunId).getD 0
  let project_name ← match headers.xProjectName with
    | some v => pure v
    | none => .error (missing_header_error "X-Project-Name")
  pure { tenant_id := tenant_id, run_id := run_id, project_name := project_name }

/-- `DataRow` from `src/models/data.rs`. -/
structure DataRow where
  time : Nat
  data : String
  step : Nat
  data_type : String
  log_group : String
  log_name : String
  tenant_id : String
  run_id : Nat
  project_name : String
deriving DecidableEq, Repr

/-- `DatabaseRow::from` for `DataRow` from `src/models/data.rs`. -/
def DataRow.from (input : DataInput) (enrichment : DataEnrichment) :
    Except AppError DataRow := do
  input.validate
  pure { time := input.time
         data := input.data
         step := input.step
         data_type := input.data_type
         log_group := log_group_from_log_name input.log_name
         log_name := input.log_name
         tenant_id := enrichment.tenant_id
         run_id := enrichment.run_id
         project_name := enrichment.project_name }

/-- The blanket single-row `IntoRows` impl applied to `DataInput`. -/
def DataInput.into_rows (i : DataInput) (enrichment : DataEnrichment) :
    Except AppError (List DataRow) := do
  pure [← DataRow.from i enrichment]

/-- `FileInput` from `src/models/files.rs` (note: its `Deserialize` derive
has no `deny_unknown_fields` attribute, and no field renames). -/
structure FileInput where
  log_name : String
  file_name : String
  file_type : String
  time : Nat
  step : Nat
  file_size : Nat
deriving DecidableEq, Repr

/-- `FileInput::validate` from `src/models/files.rs` (always `Ok`). -/
def FileInput.validate (_ : FileInput) : Except AppError Unit := .ok ()

/-- `FilesRow` from `src/models/files.rs`. -/
structure FilesRow where
  tenant_id : String
  project_name : String
  run_id : Nat
  time : Nat
  step : Nat
  log_group : String
  log_name : String
  file_name : String
  file_type : String
  file_size : Nat
deriving DecidableEq, Repr

/-- `FilesEnrichment` from `src/models/files.rs`. -/
structure FilesEnrichment where
  tenant_id : String
  run_id : Nat
  project_name : String
deriving DecidableEq, Repr

/-- Outcome of running a Rust function that may return, error, or panic. -/
inductive RustOutcome (α : Type) where
  | ok (val : α)
  | err (e : AppError)
  | panicked (msg : String)
deriving DecidableEq, Repr

/-- True exactly for the `panicked` outcome. -/
def RustOutcome.isPanicked {α : Type} : RustOutcome α → Bool
  | .panicked _ => true
  | _ => false

/-- `FilesEnrichment::from_headers` from `src/models/files.rs`: unlike the
three other enrichment extractors it calls `.parse::<u64>().unwrap()`, so a
present but unparseable `X-Run-Id` panics instead of falling back to 0. -/
def FilesEnrichment.from_headers (tenant_id : String) (headers : Headers) :
    RustOutcome FilesEnrichment :=
  match headers.xRunId with
  | none => .err (missing_header_error "X-Run-Id")
  | some rawRunId =>
    match parse_u64 rawRunId with
    | none => .panicked "called Result::unwrap() on an Err value: ParseIntError"
    | some run_id =>
      match headers.xProjectName with
      | none => .err (missing_header_error "X-Project-Name")
      | some project_name =>
        .ok { tenant_id := tenant_id, run_id := run_id,
              project_name := project_name }

/-- `DatabaseRow::from` for `FilesRow` from `src/models/files.rs`. -/
def FilesRow.from (input : FileInput) (enrichment : FilesEnrichment) :
    Except AppError FilesRow := do
  input.validate
  pure { tenant_id := enrichment.tenant_id
         project_name := enrichment.project_name
         run_id := enrichment.run_id
         time := input.time
         step := input.step
         log_group := log_group_from_log_name input.log_name
         log_name := input.log_name
         file_name := input.file_name
         file_type := input.file_type
         file_size := input.file_size }

/-- The blanket single-row `IntoRows` impl applied to `FileInput`. -/
def FileInput.into_rows (i : FileInput) (enrichment : FilesEnrichment) :
    Except AppError (List FilesRow) := do
  pure [← FilesRow.from i enrichment]

/-- `Iterator::position` over a byte list: index of the first byte
satisfying `p`. -/
def findIdxP (p : Nat → Bool) : List Nat → Option Nat
  | [] => none
  | b :: bs => if p b then some 0 else (findIdxP p bs).map (· + 1)

/-- `Iterator::rposition` over a byte list: index of the last byte
satisfying `p`. -/
def rfindIdxP (p : Nat → Bool) (l : List Nat) : Option Nat :=
  (findIdxP p l.reverse).map (fun i => l.length - 1 - i)

/-- The per-line trimming of `JsonLineProcessor::process_stream`
(`src/processors/stream.rs`): `start` is the first byte that is not a space
or tab (`unwrap_or(0)`), `end` is one past the last byte that is not `\r`,
`\n`, space or tab (`map_or(0)`); the line is yielded as the slice
`[start..end]` when `start < end` and skipped otherwise. -/
def trimCode (l : List Nat) : Option (List Nat) :=
  let start := (findIdxP (fun b => !(b == 32 || b == 9)) l).getD 0
  let stop :=
    match rfindIdxP (fun b => !(b == 13 || b == 10 || b == 32 || b == 9)) l with
    | some p => p + 1
    | none => 0
  if start < stop then some ((l.drop start).take (stop - start)) else none

/-- The trimming the spec sentence describes: leading AND trailing bytes in
the full ASCII-whitespace class space, tab, `\r`, `\n` are removed; an empty
result is skipped. -/
def trimFull (l : List Nat) : Option (List Nat) :=
  let ws : Nat → Bool := fun b => b == 13 || b == 10 || b == 32 || b == 9
  let start := (findIdxP (fun b => !ws b) l).getD 0
  let stop :=
    match rfindIdxP (fun b => !ws b) l with
    | some p => p + 1
    | none => 0
  if start < stop then some ((l.drop start).take (stop - start)) else none

/-- The line-extraction loop of `process_stream`: repeatedly drain the
buffer up to and including the first `\n` (`drain(..=pos)`), returning the
drained segments (each ending in `\n`) and the leftover bytes. -/
def splitNlAux (cur : List Nat) : List Nat → List (List Nat) × List Nat
  | [] => ([], cur)
  | b :: bs =>
    if b = 10 then
      let r := splitNlAux [] bs
      ((cur ++ [b]) :: r.1, r.2)
    else splitNlAux (cur ++ [b]) bs

/-- The chunk loop of `process_stream`: each chunk is appended to the line
buffer, every complete `\n`-terminated segment is trimmed and (when
non-empty) yielded, and after the source ends the trimmed leftover is
yielded as a final line when non-empty. -/
def decodeCore (buf : List Nat) : List (List Nat) → List (List Nat)
  | [] => (trimCode buf).toList
  | c :: cs =>
    let r := splitNlAux [] (buf ++ c)
    r.1.filterMap trimCode ++ decodeCore r.2 cs

/-- The stream decoder of `process_stream`, starting from an empty line
buffer, applied to the request body's chunk sequence. -/
def decodeChunks (chunks : List (List Nat)) : List (List Nat) :=
  decodeCore [] chunks

/-- The `\n`-separated segments of a byte sequence, the (possibly empty)
unterminated remainder last; separators are not part of the segments. -/
def specSegments : List Nat → List (List Nat)
  | [] => [[]]
  | b :: bs =>
    if b = 10 then [] :: specSegments bs
    else
      match specSegments bs with
      | [] => [[b]]
      | s :: ss => (b :: s) :: ss

/-- The decoder output the claim describes: `\n`-separated segments, each
trimmed of leading and trailing space, tab, `\r`, `\n`; empties skipped. -/
def linesPerClaim (bs : List Nat) : List (List Nat) :=
  (specSegments bs).filterMap trimFull

/-- The decoder output the code produces: `\n`-separated segments, leading
trim limited to space and tab, trailing trim over the full class; empties
skipped. -/
def linesPerCode (bs : List Nat) : List (List Nat) :=
  (specSegments bs).filterMap trimCode

/-- Classifies an `Except` error by its `ErrorCode` (none on success). -/
def exceptErrCode {α : Type} : Except AppError α → Option ErrorCode
  | .error e => some e.code
  | .ok _ => none

/-- The per-line loop of `JsonLineProcessor::process_stream`
(`src/processors/stream.rs`), starting from already-decoded lines: `some i`
is a line whose JSON parses to input `i`; `none` is a line on which
`simd_json::from_slice` fails (the code then builds a `StreamDecodingError`
whose message embeds the line preview, abstracted here).  Each parsed line
is validated, fanned out through `into_rows`, and its rows are sent to the
channel (the sends always succeed in this model, accumulating in the first
component); the first failing line aborts the whole stream, keeping the
rows already enqueued.  The second component is the running record count. -/
def processLinesAux {I D : Type} (validate : I → Except AppError Unit)
    (intoRows : I → Except AppError (List D)) :
    List (Option I) → List D → Nat → List D × Except AppError Nat
  | [], acc, n => (acc, .ok n)
  | none :: _, acc, _ =>
    (acc, .error (AppError.new .streamDecodingError
      "Failed to parse JSON line (bytes)"))
  | some i :: rest, acc, n =>
    match (do validate i; intoRows i : Except AppError (List D)) with
    | .error e => (acc, .error e)
    | .ok rows => processLinesAux validate intoRows rest (acc ++ rows) (n + rows.length)

/-- `process_stream`'s line loop from an empty channel and zero count. -/
def processLines {I D : Type} (validate : I → Except AppError Unit)
    (intoRows : I → Except AppError (List D)) (lines : List (Option I)) :
    List D × Except AppError Nat :=
  processLinesAux validate intoRows lines [] 0

/-- The success body of `process_stream`:
`"Stream processed successfully: {} records"`. -/
def streamSuccessMessage (n : Nat) : String :=
  s!"Stream processed successfully: {n} records"

/-- `process_stream` specialised to the metrics pipeline, from the point
where authentication and enrichment extraction have succeeded: returns the
rows enqueued to the metrics channel and the handler result. -/
def process_stream_metrics (enrichment : MetricEnrichment)
    (lines : List (Option MetricInput)) :
    List MetricRow × Except AppError String :=
  let r := processLines MetricInput.validate
    (fun i => i.into_rows enrichment) lines
  (r.1,
    match r.2 with
    | .ok n => .ok (streamSuccessMessage n)
    | .error e => .error e)

/-- `ingest_metrics` from `src/routes/ingest.rs`: runs the stream processor
and maps EVERY processor error to a fresh `AppError` with code
`ProcessingFailed` and message
`"Failed to process metrics stream: {}"` built from the inner error's
`Display`. -/
def ingest_metrics (enrichment : MetricEnrichment)
    (lines : List (Option MetricInput)) :
    List MetricRow × Except AppError String :=
  let r := process_stream_metrics enrichment lines
  (r.1,
    match r.2 with
    | .ok s => .ok s
    | .error e =>
      .error (AppError.new .processingFailed
        s!"Failed to process metrics stream: {e.display}"))

/-- The events one iteration of `start_background_processor`'s `select!`
loop can observe (`src/processors/background.rs`): a row received from the
channel, an inactivity tick (`intervalElapsed` abstracts
`last_flush.elapsed() >= flush_interval`), or channel closure. -/
inductive BatchEvent (F : Type) where
  | recv (row : F)
  | tick (intervalElapsed : Bool)
  | close
deriving DecidableEq, Repr

/-- Observable state of one batcher task: the FIFO buffer, the batches
drained by `flush_records` (each submitted to the writer with up to 3
attempts and dropped on persistent failure — writer outcomes do not affect
the buffer, which is drained up front), the batches drained by
`final_flush`, and whether the loop has exited. -/
structure BatchState (F : Type) where
  buffer : List F
  normalFlushes : List (List F)
  finalFlushes : List (List F)
  exited : Bool
deriving DecidableEq, Repr

/-- The batcher's starting state: empty buffer, no flushes, running. -/
def BatchState.init (F : Type) : BatchState F :=
  { buffer := [], normalFlushes := [], finalFlushes := [], exited := false }

/-- `flush_records` from `src/processors/background.rs` as it affects the
buffer: an empty buffer returns immediately; otherwise the whole buffer is
drained into one submitted batch. -/
def flush_records {F : Type} (st : BatchState F) : BatchState F :=
  if st.buffer.isEmpty then st
  else { st with buffer := [],
                 normalFlushes := st.normalFlushes ++ [st.buffer] }

/-- The `select!` body of `start_background_processor`'s loop: append a
received row; on a tick, flush when the interval elapsed and the buffer is
non-empty (and `skip_upload` unset); on closure, drain a non-empty buffer
(`skip_upload` unset) into one `final_flush` batch and exit. -/
def processorSelect {F : Type} (skipUpload : Bool) (st : BatchState F) :
    BatchEvent F → BatchState F
  | .recv row => { st with buffer := st.buffer ++ [row] }
  | .tick intervalElapsed =>
    if intervalElapsed ∧ st.buffer.length > 0 ∧ ¬skipUpload then
      flush_records st
    else st
  | .close =>
    if st.buffer.isEmpty = false ∧ ¬skipUpload then
      { st with buffer := [],
                finalFlushes := st.finalFlushes ++ [st.buffer],
                exited := true }
    else { st with exited := true }

/-- One iteration of `start_background_processor`'s loop: the full-buffer
pre-check (`buffer.len() >= batch_size` forces `flush_records` unless
`skip_upload`), then the `select!` on the observed event. -/
def processorStep {F : Type} (skipUpload : Bool) (batchSize : Nat)
    (st : BatchState F) (ev : BatchEvent F) : BatchState F :=
  if st.exited then st
  else
    processorSelect skipUpload
      (if st.buffer.length ≥ batchSize ∧ ¬skipUpload then flush_records st
       else st) ev

/-- A batcher run over a sequence of observed events, from the init state. -/
def runProcessor {F : Type} (skipUpload : Bool) (batchSize : Nat)
    (events : List (BatchEvent F)) : BatchState F :=
  events.foldl (processorStep skipUpload batchSize) (BatchState.init F)

/-- Trace of one `final_flush` retry loop: how many insert attempts ran,
the backoff sleeps (in seconds) between them, and whether the loop ended in
the fatal `panic!`. -/
structure FlushTrace where
  attempts : Nat
  sleeps : List Nat
  fatal : Bool
deriving DecidableEq, Repr

/-- The retry loop of `final_flush` (`src/processors/background.rs`):
attempt the insert (`writer rc` gives the outcome of the attempt with
`retry_count = rc`); on failure increment `retry_count`, panic once it
reaches `max_retries`, otherwise sleep `2 ^ retry_count` seconds and retry.
`fuel` bounds the recursion; it is maintained `≥ max_retries - rc`, so the
`fuel = 0` base is never reached from `final_flush`'s entry point. -/
def final_flush_aux (writer : Nat → Bool) (maxRetries : Nat) :
    Nat → Nat → FlushTrace
  | rc, 0 => { attempts := rc, sleeps := [], fatal := true }
  | rc, fuel + 1 =>
    if writer rc then { attempts := rc + 1, sleeps := [], fatal := false }
    else if maxRetries ≤ rc + 1 then
      { attempts := rc + 1, sleeps := [], fatal := true }
    else
      let t := final_flush_aux writer maxRetries (rc + 1) fuel
      { attempts := t.attempts, sleeps := 2 ^ (rc + 1) :: t.sleeps,
        fatal := t.fatal }

/-- `final_flush` with its `max_retries = 5`, from `retry_count = 0`. -/
def final_flush (writer : Nat → Bool) : FlushTrace :=
  final_flush_aux writer 5 0 5

/-- The token-character test of `auth` (`src/auth.rs`):
`is_ascii_alphanumeric` or one of `-`, `_`, `.`. -/
def validTokenChar (c : Char) : Bool :=
  c.isAlphanum || c == '-' || c == '_' || c == '.'

/-- `auth` from `src/auth.rs`, up to (and excluding) the database lookup
`db.get_tenant_by_api_key(token)`: a returned token is exactly the value
the lookup would receive; every `.error` outcome rejects the request before
any database access.  The header value is its character list (`none` =
header absent; `to_str` failures cannot arise for the values modelled). -/
def auth_check (authHeader : Option (List Char)) : Except AppError (List Char) :=
  match authHeader with
  | none => .error (AppError.new .missingToken "Missing Authorization header")
  | some cs =>
    if cs.take 7 = "Bearer ".toList then
      let token := rustTrim (cs.drop 7)
      if token.isEmpty then
        .error (invalid_auth_error "Bearer token cannot be empty")
      else if !(token.all validTokenChar) then
        .error (AppError.new .invalidTokenFormat
          "Bearer token contains invalid characters")
      else .ok token
    else
      .error (AppError.new .invalidBearerFormat
        "Authorization header must start with 'Bearer '")

/-- A JSON value, as far as the deserialization the claims exercise needs:
strings, unsigned integer literals, floating-point numbers, and objects
(field lists). -/
inductive JVal where
  | jstr (s : String)
  | jnum (n : Nat)
  | jfloat (v : F64)
  | jobj (fields : List (String × JVal))

/-- First field of the given name in a JSON object (serde reports an error
on duplicate fields; objects modelled here have distinct names). -/
def getField (fields : List (String × JVal)) (k : String) : Option JVal :=
  (fields.find? (fun kv => kv.1 == k)).map (·.2)

/-- Deserializes a JSON value as a `u64` field (serde rejects values at or
above `2 ^ 64`). -/
def getU64 : JVal → Option Nat
  | .jnum n => if n < 2 ^ 64 then some n else none
  | _ => none

/-- Deserializes a JSON value as an `f64` field (integer literals widen). -/
def getF64 : JVal → Option F64
  | .jfloat v => some v
  | .jnum n => some (.finite n)
  | _ => none

/-- Deserializes a JSON value as a `String` field. -/
def getStr : JVal → Option String
  | .jstr s => some s
  | _ => none

/-- Deserializes a JSON object as a `HashMap<String, f64>` (entry list). -/
def getF64Map : JVal → Option (List (String × F64))
  | .jobj fs => fs.mapM (fun kv => (getF64 kv.2).map (kv.1, ·))
  | _ => none

/-- serde `Deserialize` for `MetricInput` (`src/models/metrics.rs`): the
derive carries `deny_unknown_fields`, so any field other than `time`,
`step`, `data` fails the whole parse. -/
def parseMetricInput (fields : List (String × JVal)) : Option MetricInput :=
  if fields.all (fun kv => kv.1 == "time" || kv.1 == "step" || kv.1 == "data") then do
    let time ← (getField fields "time").bind getU64
    let step ← (getField fields "step").bind getU64
    let data ← (getField fields "data").bind getF64Map
    pure { time := time, step := step, data := data }
  else none

/-- serde `Deserialize` for `LogInput` (`src/models/log.rs`), with
`deny_unknown_fields` and the renames `lineNumber`, `logType`. -/
def parseLogInput (fields : List (String × JVal)) : Option LogInput :=
  if fields.all (fun kv =>
      kv.1 == "time" || kv.1 == "message" || kv.1 == "lineNumber" ||
        kv.1 == "logType") then do
    let time ← (getField fields "time").bind getU64
    let message ← (getField fields "message").bind getStr
    let line_number ← (getField fields "lineNumber").bind getU64
    let log_type ← (getField fields "logType").bind getStr
    pure { time := time, message := message, line_number := line_number,
           log_type := log_type }
  else none

/-- serde `Deserialize` for `DataInput` (`src/models/data.rs`), with
`deny_unknown_fields` and the renames `dataType`, `logName`. -/
def parseDataInput (fields : List (String × JVal)) : Option DataInput :=
  if fields.all (fun kv =>
      kv.1 == "time" || kv.1 == "data" || kv.1 == "step" ||
        kv.1 == "dataType" || kv.1 == "logName") then do
    let time ← (getField fields "time").bind getU64
    let data ← (getField fields "data").bind getStr
    let step ← (getField fields "step").bind getU64
    let data_type ← (getField fields "dataType").bind getStr
    let log_name ← (getField fields "logName").bind getStr
    pure { time := time, data := data, step := step, data_type := data_type,
           log_name := log_name }
  else none

/-- serde `Deserialize` for `FileInput` (`src/models/files.rs`): the derive
has NO `deny_unknown_fields` attribute (and no renames), so serde's default
applies — fields other than the six declared ones are silently ignored. -/
def parseFileInput (fields : List (String × JVal)) : Option FileInput := do
  let log_name ← (getField fields "log_name").bind getStr
  let file_name ← (getField fields "file_name").bind getStr
  let file_type ← (getField fields "file_type").bind getStr
  let time ← (getField fields "time").bind getU64
  let step ← (getField fields "step").bind getU64
  let file_size ← (getField fields "file_size").bind getU64
  pure { log_name := log_name, file_name := file_name, file_type := file_type,
         time := time, step := step, file_size := file_size }

/-- `FileType` from `src/routes/files.rs`: the closed extension enumeration
plus the open `Custom(mime)` variant. -/
inductive FileType where
  | jpeg | jpg | png | gif | svg | webp
  | mp4 | webm | avi | mov
  | mp3 | wav | ogg
  | pdf | doc | docx | xls | xlsx | txt
  | json | csv | xml | yaml
  | onnx | pkl | h5 | tfLite | savedModel | pt | ckpt
  | custom (mime : String)
deriving DecidableEq, Repr

/-- `FileType::from_str` from `src/routes/files.rs`: case-insensitive
lookup of the extension table (Rust lowercases with `to_lowercase`; the
inputs exercised here are ASCII, where Lean's `toLower` agrees); an unknown
string becomes `Custom` holding the ORIGINAL string.  The source returns
`Option` but never `None`. -/
def FileType.from_str (s : String) : Option FileType :=
  match rustToLower s with
  | "jpeg" => some .jpeg
  | "jpg" => some .jpg
  | "png" => some .png
  | "gif" => some .gif
  | "svg" => some .svg
  | "webp" => some .webp
  | "mp4" => some .mp4
  | "webm" => some .webm
  | "avi" => some .avi
  | "mov" => some .mov
  | "mp3" => some .mp3
  | "wav" => some .wav
  | "ogg" => some .ogg
  | "pdf" => some .pdf
  | "doc" => some .doc
  | "docx" => some .docx
  | "xls" => some .xls
  | "xlsx" => some .xlsx
  | "txt" => some .txt
  | "json" => some .json
  | "csv" => some .csv
  | "xml" => some .xml
  | "yaml" => some .yaml
  | "yml" => some .yaml
  | "onnx" => some .onnx
  | "pkl" => some .pkl
  | "h5" => some .h5
  | "tflite" => some .tfLite
  | "savedmodel" => some .savedModel
  | "pt" => some .pt
  | "ckpt" => some .ckpt
  | _ => some (.custom s)

/-- The serde `Serialize` derive on `FileType` with
`rename_all = "snake_case"`: unit variants serialize to their snake-cased
names (`TfLite` → `"tf_lite"`, `SavedModel` → `"saved_model"`), and the
newtype variant `Custom(m)` to the externally tagged object
`{ "custom": m }`. -/
def FileType.serialize : FileType → JVal
  | .jpeg => .jstr "jpeg"
  | .jpg => .jstr "jpg"
  | .png => .jstr "png"
  | .gif => .jstr "gif"
  | .svg => .jstr "svg"
  | .webp => .jstr "webp"
  | .mp4 => .jstr "mp4"
  | .webm => .jstr "webm"
  | .avi => .jstr "avi"
  | .mov => .jstr "mov"
  | .mp3 => .jstr "mp3"
  | .wav => .jstr "wav"
  | .ogg => .jstr "ogg"
  | .pdf => .jstr "pdf"
  | .doc => .jstr "doc"
  | .docx => .jstr "docx"
  | .xls => .jstr "xls"
  | .xlsx => .jstr "xlsx"
  | .txt => .jstr "txt"
  | .json => .jstr "json"
  | .csv => .jstr "csv"
  | .xml => .jstr "xml"
  | .yaml => .jstr "yaml"
  | .onnx => .jstr "onnx"
  | .pkl => .jstr "pkl"
  | .h5 => .jstr "h5"
  | .tfLite => .jstr "tf_lite"
  | .savedModel => .jstr "saved_model"
  | .pt => .jstr "pt"
  | .ckpt => .jstr "ckpt"
  | .custom m => .jobj [("custom", .jstr m)]

/-- The manual `Deserialize` impl for `FileType`
(`src/routes/files.rs`, `FileTypeVisitor`): a string goes through
`from_str` with the `Custom` fallback; an object is decoded as the helper
struct `CustomType { custom: String }` (no `deny_unknown_fields`, so other
object fields are ignored); any other JSON shape is an error. -/
def FileType.deserialize : JVal → Option FileType
  | .jstr s => some ((FileType.from_str s).getD (.custom s))
  | .jobj fields =>
    (getField fields "custom").bind fun v =>
      match v with
      | .jstr m => some (.custom m)
      | _ => none
  | _ => none

/-- Parse-then-serialize round trip on a `FileType` JSON value. -/
def fileTypeRoundTrip (v : JVal) : Option JVal :=
  (FileType.deserialize v).map FileType.serialize

/-- The extension strings of §4.7 whose serialized form equals the string
itself (all known extensions except `yml`, `tflite` and `savedmodel`). -/
def roundTrippingExtensions : List String :=
  ["jpeg", "jpg", "png", "gif", "svg", "webp", "mp4", "webm", "avi", "mov",
   "mp3", "wav", "ogg", "pdf", "doc", "docx", "xls", "xlsx", "txt", "json",
   "csv", "xml", "yaml", "onnx", "pkl", "h5", "pt", "ckpt"]

/-- The enrichment triple used by the concrete scenarios below. -/
def exampleEnrichment : MetricEnrichment :=
  { tenant_id := "t", run_id := 42, project_name := "p" }

/-- A parsed metrics line carrying a NaN value (scenario 2 of §8). -/
def nanMetricLine : MetricInput :=
  { time := 1, step := 0, data := [("loss", F64.nan)] }

/-- The happy-path metrics line of §8, scenario 1. -/
def happyMetricLine : MetricInput :=
  { time := 1, step := 0,
    data := [("a/loss", F64.finite 1), ("a/acc", F64.finite 2)] }

/-- Headers with a present but unparseable X-Run-Id value. -/
def badRunIdHeaders : Headers :=
  { xRunId := some "abc", xProjectName := some "p", authorization := none }

/-- A JSON object for `FileInput` carrying all six declared fields plus an
unknown field `extra`. -/
def fileObjWithUnknownField : List (String × JVal) :=
  [("log_name", .jstr "a"), ("file_name", .jstr "b"),
   ("file_type", .jstr "png"), ("time", .jnum 1), ("step", .jnum 0),
   ("file_size", .jnum 10), ("extra", .jnum 1)]

theorem log_group_example₁ : log_group_from_log_name "a/b/c" = "a/b" := by decide

theorem log_group_example₂ : log_group_from_log_name "test-metric" = "" := by decide

theorem findIdxP_cons (p : Nat → Bool) (b : Nat) (bs : List Nat) :
    findIdxP p (b :: bs) =
      if p b then some 0 else (findIdxP p bs).map (· + 1) := rfl

theorem findIdxP_append_some (p : Nat → Bool) (t : List Nat) :
    ∀ s : List Nat, ∀ i : Nat, findIdxP p s = some i →
      findIdxP p (s ++ t) = some i := by
  intro s
  induction s with
  | nil => intro i h; simp [findIdxP] at h
  | cons b s ih =>
    intro i h
    rw [findIdxP_cons] at h
    rw [List.cons_append, findIdxP_cons]
    by_cases hb : p b = true
    · rw [if_pos hb] at h ⊢; exact h
    · rw [if_neg hb] at h ⊢
      cases h2 : findIdxP p s with
      | none => rw [h2] at h; simp at h
      | some j =>
        rw [h2] at h
        rw [ih j h2]
        exact h

theorem findIdxP_append_none (p : Nat → Bool) (t : List Nat) :
    ∀ s : List Nat, findIdxP p s = none →
      findIdxP p (s ++ t) = (findIdxP p t).map (· + s.length) := by
  intro s
  induction s with
  | nil =>
    intro _
    simp only [List.nil_append, List.length_nil]
    cases h2 : findIdxP p t with
    | none => rfl
    | some j => simp
  | cons b s ih =>
    intro h
    rw [findIdxP_cons] at h
    rw [List.cons_append, findIdxP_cons]
    by_cases hb : p b = true
    · rw [if_pos hb] at h; simp at h
    · rw [if_neg hb] at h ⊢
      have h2 : findIdxP p s = none := by
        cases h2 : findIdxP p s with
        | none => rfl
        | some j => rw [h2] at h; simp at h
      rw [ih h2]
      cases h3 : findIdxP p t with
      | none => rfl
      | some j =>
        simp only [Option.map_some', List.length_cons, Option.some.injEq]
        omega

theorem findIdxP_eq_none_iff (p : Nat → Bool) :
    ∀ l : List Nat, (findIdxP p l = none ↔ ∀ b ∈ l, p b = false) := by
  intro l
  induction l with
  | nil => simp [findIdxP]
  | cons b bs ih =>
    rw [findIdxP_cons]
    by_cases hb : p b = true
    · rw [if_pos hb]
      constructor
      · intro h; cases h
      · intro h
        exact absurd (h b (List.mem_cons_self b bs)) (by simp [hb])
    · rw [if_neg hb]
      have hmap : (Option.map (· + 1) (findIdxP p bs) = none) ↔
          findIdxP p bs = none := by
        cases findIdxP p bs <;> simp
      rw [hmap, ih]
      constructor
      · intro h x hx
        rcases List.mem_cons.mp hx with rfl | hx2
        · exact Bool.eq_false_iff.mpr hb
        · exact h x hx2
      · intro h x hx
        exact h x (List.mem_cons_of_mem _ hx)

theorem rfindIdxP_concat (p : Nat → Bool) (s : List Nat) (b : Nat) :
    rfindIdxP p (s ++ [b]) =
      if p b then some s.length else rfindIdxP p s := by
  unfold rfindIdxP
  rw [show (s ++ [b]).reverse = b :: s.reverse by simp]
  rw [findIdxP_cons]
  by_cases hb : p b = true
  · rw [if_pos hb, if_pos hb]
    simp
  · rw [if_neg hb, if_neg hb]
    cases h : findIdxP p s.reverse with
    | none => rfl
    | some i =>
      simp only [Option.map_some', Option.some.injEq, List.length_append,
        List.length_cons, List.length_nil]
      omega

theorem rfindIdxP_lt_length {p : Nat → Bool} {l : List Nat} {j : Nat}
    (h : rfindIdxP p l = some j) : j < l.length := by
  unfold rfindIdxP at h
  cases hf : findIdxP p l.reverse with
  | none => rw [hf] at h; cases h
  | some i =>
    rw [hf] at h
    simp only [Option.map_some', Option.some.injEq] at h
    have hl : l.length ≠ 0 := by
      intro h0
      have hnil : l = [] := List.eq_nil_of_length_eq_zero h0
      rw [hnil] at hf
      simp [findIdxP] at hf
    omega

theorem trimCode_concat_nl (s : List Nat) : trimCode (s ++ [10]) = trimCode s := by
  have htrail :
      rfindIdxP (fun b => !(b == 13 || b == 10 || b == 32 || b == 9)) (s ++ [10]) =
        rfindIdxP (fun b => !(b == 13 || b == 10 || b == 32 || b == 9)) s := by
    rw [rfindIdxP_concat]
    rw [if_neg (by decide)]
  cases hlead : findIdxP (fun b => !(b == 32 || b == 9)) s with
  | some i =>
    have hlead2 : findIdxP (fun b => !(b == 32 || b == 9)) (s ++ [10]) = some i :=
      findIdxP_append_some _ [10] s i hlead
    simp only [trimCode, htrail, hlead, hlead2, Option.getD_some]
    cases htr : rfindIdxP (fun b => !(b == 13 || b == 10 || b == 32 || b == 9)) s with
    | none => simp
    | some j =>
      have hj : j < s.length := rfindIdxP_lt_length htr
      simp only
      by_cases hij : i < j + 1
      · rw [if_pos hij, if_pos hij]
        congr 1
        rw [List.drop_append_of_le_length (by omega)]
        rw [List.take_append_of_le_length
          (by rw [List.length_drop]; exact Nat.sub_le_sub_right hj i)]
      · rw [if_neg hij, if_neg hij]
  | none =>
    have hall := (findIdxP_eq_none_iff _ s).mp hlead
    have htr : rfindIdxP (fun b => !(b == 13 || b == 10 || b == 32 || b == 9)) s
        = none := by
      unfold rfindIdxP
      rw [(findIdxP_eq_none_iff _ s.reverse).mpr ?_]
      · rfl
      · intro b hb
        have hmem := hall b (List.mem_reverse.mp hb)
        have hb2 : b = 32 ∨ b = 9 := by
          simp only [Bool.not_eq_false', Bool.or_eq_true, beq_iff_eq] at hmem
          exact hmem
        rcases hb2 with rfl | rfl <;> rfl
    have hlead2 : findIdxP (fun b => !(b == 32 || b == 9)) (s ++ [10])
        = some s.length := by
      rw [findIdxP_append_none _ [10] s hlead]
      simp [findIdxP]
    simp only [trimCode, htrail, htr, hlead, hlead2, Option.getD_some,
      Option.getD_none]
    simp

theorem splitNlAux_nil (cur : List Nat) : splitNlAux cur [] = ([], cur) := rfl

theorem splitNlAux_cons_nl_fst (cur bs : List Nat) :
    (splitNlAux cur (10 :: bs)).1 = (cur ++ [10]) :: (splitNlAux [] bs).1 := rfl

theorem splitNlAux_cons_nl_snd (cur bs : List Nat) :
    (splitNlAux cur (10 :: bs)).2 = (splitNlAux [] bs).2 := rfl

theorem splitNlAux_cons (cur : List Nat) (b : Nat) (bs : List Nat) (hb : b ≠ 10) :
    splitNlAux cur (b :: bs) = splitNlAux (cur ++ [b]) bs := by
  simp [splitNlAux, hb]

theorem specSegments_cons_nl (bs : List Nat) :
    specSegments (10 :: bs) = [] :: specSegments bs := rfl

theorem specSegments_cons (b : Nat) (bs : List Nat) (hb : b ≠ 10) :
    specSegments (b :: bs) =
      match specSegments bs with
      | [] => [[b]]
      | s :: ss => (b :: s) :: ss := by
  simp [specSegments, hb]

theorem dropLast_append_single (l : List Nat) (a : Nat) :
    (l ++ [a]).dropLast = l := by simp

theorem splitNlAux_no_nl (bs : List Nat) :
    ∀ cur : List Nat, 10 ∉ cur → 10 ∉ (splitNlAux cur bs).2 := by
  induction bs with
  | nil => intro cur h; rw [splitNlAux_nil]; exact h
  | cons b bs ih =>
    intro cur h
    by_cases hb : b = 10
    · subst hb
      rw [splitNlAux_cons_nl_snd]
      exact ih [] (by simp)
    · rw [splitNlAux_cons cur b bs hb]
      refine ih (cur ++ [b]) ?_
      simp only [List.mem_append, List.mem_singleton]
      rintro (hc | rfl)
      · exact h hc
      · exact hb rfl

theorem splitNlAux_seg_nl (bs : List Nat) :
    ∀ cur seg : List Nat, seg ∈ (splitNlAux cur bs).1 →
      ∃ pre, seg = pre ++ [10] := by
  induction bs with
  | nil => intro cur seg h; rw [splitNlAux_nil] at h; cases h
  | cons b bs ih =>
    intro cur seg h
    by_cases hb : b = 10
    · subst hb
      rw [splitNlAux_cons_nl_fst] at h
      rcases List.mem_cons.mp h with rfl | hmem
      · exact ⟨cur, rfl⟩
      · exact ih [] seg hmem
    · rw [splitNlAux_cons cur b bs hb] at h
      exact ih (cur ++ [b]) seg h

theorem specSegments_ne_nil (bs : List Nat) : specSegments bs ≠ [] := by
  induction bs with
  | nil => simp [specSegments]
  | cons b bs ih =>
    by_cases hb : b = 10
    · subst hb; rw [specSegments_cons_nl]; simp
    · rw [specSegments_cons b bs hb]
      cases h : specSegments bs with
      | nil => exact absurd h ih
      | cons s ss => simp

theorem specSegments_no_nl : ∀ bs : List Nat, 10 ∉ bs → specSegments bs = [bs] := by
  intro bs
  induction bs with
  | nil => intro _; rfl
  | cons b bs ih =>
    intro h
    have hb : b ≠ 10 := fun hb => h (by simp [hb])
    have hbs : 10 ∉ bs := fun hm => h (by simp [hm])
    rw [specSegments_cons b bs hb, ih hbs]

theorem specSegments_append_nl :
    ∀ cur : List Nat, 10 ∉ cur → ∀ z : List Nat,
      specSegments (cur ++ 10 :: z) = cur :: specSegments z := by
  intro cur
  induction cur with
  | nil => intro _ z; rw [List.nil_append, specSegments_cons_nl]
  | cons b cur ih =>
    intro h z
    have hb : b ≠ 10 := fun hb => h (by simp [hb])
    have hcur : 10 ∉ cur := fun hm => h (by simp [hm])
    rw [List.cons_append, specSegments_cons b _ hb, ih hcur z]

theorem specSegments_split :
    ∀ bs cur y : List Nat, 10 ∉ cur →
      specSegments (cur ++ bs ++ y) =
        ((splitNlAux cur bs).1).map List.dropLast ++
          specSegments ((splitNlAux cur bs).2 ++ y) := by
  intro bs
  induction bs with
  | nil =>
    intro cur y _
    rw [splitNlAux_nil]
    simp
  | cons b bs ih =>
    intro cur y hcur
    by_cases hb : b = 10
    · subst hb
      have hassoc : cur ++ 10 :: bs ++ y = cur ++ 10 :: (bs ++ y) := by simp
      rw [hassoc, specSegments_append_nl cur hcur (bs ++ y)]
      rw [splitNlAux_cons_nl_fst, splitNlAux_cons_nl_snd, List.map_cons,
        dropLast_append_single, List.cons_append]
      have hrec := ih [] y (by simp)
      rw [List.nil_append] at hrec
      rw [← hrec]
    · have hcur2 : 10 ∉ cur ++ [b] := by
        simp only [List.mem_append, List.mem_singleton]
        rintro (hc | rfl)
        · exact hcur hc
        · exact hb rfl
      have hassoc : cur ++ (b :: bs) ++ y = (cur ++ [b]) ++ bs ++ y := by simp
      rw [hassoc, splitNlAux_cons cur b bs hb]
      exact ih (cur ++ [b]) y hcur2

theorem filterMap_congr_mem {α β : Type} {f g : α → Option β} :
    ∀ l : List α, (∀ x ∈ l, f x = g x) → l.filterMap f = l.filterMap g := by
  intro l
  induction l with
  | nil => intro _; rfl
  | cons x xs ih =>
    intro h
    simp only [List.filterMap_cons, h x (by simp)]
    rw [ih fun y hy => h y (by simp [hy])]

theorem decodeCore_nil (buf : List Nat) :
    decodeCore buf [] = (trimCode buf).toList := rfl

theorem decodeCore_cons (buf c : List Nat) (cs : List (List Nat)) :
    decodeCore buf (c :: cs) =
      (splitNlAux [] (buf ++ c)).1.filterMap trimCode ++
        decodeCore (splitNlAux [] (buf ++ c)).2 cs := rfl

theorem decodeCore_eq :
    ∀ (cs : List (List Nat)) (buf : List Nat), 10 ∉ buf →
      decodeCore buf cs = linesPerCode (buf ++ cs.flatten) := by
  intro cs
  induction cs with
  | nil =>
    intro buf h
    rw [decodeCore_nil, List.flatten_nil, List.append_nil]
    simp only [linesPerCode]
    rw [specSegments_no_nl buf h]
    cases h2 : trimCode buf with
    | none => simp [List.filterMap_cons, h2]
    | some t => simp [List.filterMap_cons, h2]
  | cons c cs ih =>
    intro buf _
    rw [decodeCore_cons]
    have hr2 : 10 ∉ (splitNlAux [] (buf ++ c)).2 :=
      splitNlAux_no_nl (buf ++ c) [] (by simp)
    have hsplit := specSegments_split (buf ++ c) [] cs.flatten (by simp)
    rw [List.nil_append] at hsplit
    have hassoc : buf ++ (c :: cs).flatten = (buf ++ c) ++ cs.flatten := by
      rw [List.flatten_cons]
      simp
    simp only [linesPerCode]
    rw [hassoc, hsplit, List.filterMap_append]
    congr 1
    · rw [List.filterMap_map]
      refine filterMap_congr_mem _ ?_
      intro seg hseg
      obtain ⟨pre, rfl⟩ := splitNlAux_seg_nl (buf ++ c) [] seg hseg
      simp only [Function.comp_apply, dropLast_append_single]
      exact trimCode_concat_nl pre
    · rw [ih _ hr2]
      rfl

theorem validateMetricEntries_err :
    ∀ l : List (String × F64), (∃ kv ∈ l, kv.2.isFinite = false) →
      ∃ e, validateMetricEntries l = .error e ∧ e.code = .invalidMetricFormat := by
  intro l
  induction l with
  | nil => rintro ⟨kv, hmem, _⟩; cases hmem
  | cons kv rest ih =>
    rintro ⟨w, hmem, hw⟩
    obtain ⟨key, value⟩ := kv
    by_cases hkey : trimIsEmpty key = true
    · exact ⟨AppError.new .invalidMetricFormat "metric name cannot be empty",
        by simp [validateMetricEntries, hkey], rfl⟩
    · by_cases hval : value.isFinite = true
      · have hrest : ∃ kv ∈ rest, kv.2.isFinite = false := by
          rcases List.mem_cons.mp hmem with rfl | hmem2
          · exact absurd hval (by simp [hw])
          · exact ⟨w, hmem2, hw⟩
        obtain ⟨e, he, hc⟩ := ih hrest
        refine ⟨e, ?_, hc⟩
        simp [validateMetricEntries, hkey, hval, he]
      · refine ⟨AppError.new .invalidMetricFormat
          s!"metric '{key}' has invalid value: {value.display}", ?_, rfl⟩
        simp [validateMetricEntries, hkey, hval]

theorem MetricInput.validate_err (i : MetricInput)
    (h : ∃ kv ∈ i.data, kv.2.isFinite = false) :
    ∃ e, i.validate = .error e ∧ e.code = .invalidMetricFormat := by
  obtain ⟨w, hmem, hw⟩ := h
  have hne : i.data ≠ [] := by
    intro hnil; rw [hnil] at hmem; cases hmem
  obtain ⟨e, he, hc⟩ := validateMetricEntries_err i.data ⟨w, hmem, hw⟩
  exact ⟨e, by simp [MetricInput.validate, hne, he], hc⟩

theorem processLinesAux_append_ok {I D : Type}
    (validate : I → Except AppError Unit)
    (intoRows : I → Except AppError (List D)) :
    ∀ (pre rest : List (Option I)) (acc : List D) (n : Nat)
      (acc' : List D) (n' : Nat),
      processLinesAux validate intoRows pre acc n = (acc', .ok n') →
      processLinesAux validate intoRows (pre ++ rest) acc n =
        processLinesAux validate intoRows rest acc' n' := by
  intro pre
  induction pre with
  | nil =>
    intro rest acc n acc' n' h
    simp only [processLinesAux, Prod.mk.injEq, Except.ok.injEq] at h
    rw [List.nil_append, h.1, h.2]
  | cons line pre ih =>
    intro rest acc n acc' n' h
    cases line with
    | none => simp [processLinesAux] at h
    | some i =>
      simp only [processLinesAux] at h ⊢
      cases hv : (do validate i; intoRows i : Except AppError (List D)) with
      | error e => rw [hv] at h; simp at h
      | ok rows =>
        rw [hv] at h
        exact ih rest (acc ++ rows) (n + rows.length) acc' n' h

theorem processLinesAux_count {I D : Type}
    (validate : I → Except AppError Unit)
    (intoRows : I → Except AppError (List D)) :
    ∀ (lines : List (Option I)) (acc : List D) (n : Nat),
      n = acc.length →
      ∀ (acc' : List D) (n' : Nat),
        processLinesAux validate intoRows lines acc n = (acc', .ok n') →
        n' = acc'.length := by
  intro lines
  induction lines with
  | nil =>
    intro acc n hn acc' n' h
    simp only [processLinesAux, Prod.mk.injEq, Except.ok.injEq] at h
    rw [← h.1, ← h.2, hn]
  | cons line lines ih =>
    intro acc n hn acc' n' h
    cases line with
    | none => simp [processLinesAux] at h
    | some i =>
      simp only [processLinesAux] at h
      cases hv : (do validate i; intoRows i : Except AppError (List D)) with
      | error e => rw [hv] at h; simp at h
      | ok rows =>
        rw [hv] at h
        exact ih (acc ++ rows) (n + rows.length)
          (by rw [hn, List.length_append]) acc' n' h

theorem do_validate_error {I D : Type} (validate : I → Except AppError Unit)
    (intoRows : I → Except AppError (List D)) (i : I) (e : AppError)
    (h : validate i = .error e) :
    (do validate i; intoRows i : Except AppError (List D)) = .error e := by
  show validate i >>= (fun _ => intoRows i) = .error e
  rw [h]
  rfl

/-- Claim C1 (corrected): a metrics line that parses as a `MetricInput` but
carries a non-finite value aborts the request at that line and enqueues no
rows from it, but the HTTP response carries status 422 with code
`PROCESSING_FAILED`, not 400 with `INVALID_METRIC_FORMAT`: the route
handler `ingest_metrics` re-wraps every pipeline error (including the
validation's `InvalidMetricFormat`) into a fresh `ProcessingFailed`
error. -/
theorem metric_nonfinite_line_aborts_as_422
    (enr : MetricEnrichment) (pre rest : List (Option MetricInput))
    (bad : MetricInput) (rs : List MetricRow) (n : Nat)
    (hpre : processLines MetricInput.validate
      (fun i => i.into_rows enr) pre = (rs, .ok n))
    (hbad : ∃ kv ∈ bad.data, kv.2.isFinite = false) :
    (ingest_metrics enr (pre ++ some bad :: rest)).1 = rs ∧
    exceptErrCode (ingest_metrics enr (pre ++ some bad :: rest)).2 =
      some ErrorCode.processingFailed ∧
    ErrorCode.processingFailed.statusCode = 422 := by
  obtain ⟨e, hval, _⟩ := MetricInput.validate_err bad hbad
  have hdo := do_validate_error MetricInput.validate
    (fun i => i.into_rows enr) bad e hval
  have happ := processLinesAux_append_ok MetricInput.validate
    (fun i => i.into_rows enr) pre (some bad :: rest) [] 0 rs n hpre
  have hrun : processLines MetricInput.validate (fun i => i.into_rows enr)
      (pre ++ some bad :: rest) = (rs, .error e) := by
    unfold processLines
    rw [happ]
    simp only [processLinesAux, hdo]
  refine ⟨?_, ?_, rfl⟩
  · simp [ingest_metrics, process_stream_metrics, hrun]
  · simp only [ingest_metrics, process_stream_metrics, hrun, exceptErrCode]
    rfl

/-- Claim C1 counterexample: on the concrete one-line NaN request the
response error code is `ProcessingFailed` (status 422), not the
`InvalidMetricFormat` (status 400) the claim requires; no rows are
enqueued. -/
theorem metric_nonfinite_status_counterexample :
    exceptErrCode (ingest_metrics exampleEnrichment [some nanMetricLine]).2 =
      some ErrorCode.processingFailed ∧
    ErrorCode.processingFailed.statusCode = 422 ∧
    ¬(ErrorCode.processingFailed.statusCode = 400) ∧
    ErrorCode.processingFailed ≠ ErrorCode.invalidMetricFormat ∧
    (ingest_metrics exampleEnrichment [some nanMetricLine]).1 = [] := by
  refine ⟨by decide, by decide, by decide, by decide, by decide⟩

/-- Witness for the amended claim C1 at the concrete NaN request. -/
theorem metric_nonfinite_line_aborts_as_422_witness :
    (ingest_metrics exampleEnrichment ([] ++ some nanMetricLine :: [])).1 = [] ∧
    exceptErrCode
        (ingest_metrics exampleEnrichment ([] ++ some nanMetricLine :: [])).2 =
      some ErrorCode.processingFailed ∧
    ErrorCode.processingFailed.statusCode = 422 :=
  metric_nonfinite_line_aborts_as_422 exampleEnrichment [] [] nanMetricLine [] 0
    rfl ⟨("loss", F64.nan), by simp [nanMetricLine], rfl⟩

theorem flush_records_buffer {F : Type} (st : BatchState F) :
    (flush_records st).buffer = [] := by
  unfold flush_records
  split
  · exact List.isEmpty_iff.mp (by assumption)
  · rfl

theorem flush_records_finalFlushes {F : Type} (st : BatchState F) :
    (flush_records st).finalFlushes = st.finalFlushes := by
  unfold flush_records
  split <;> rfl

theorem flush_records_exited {F : Type} (st : BatchState F) :
    (flush_records st).exited = st.exited := by
  unfold flush_records
  split <;> rfl

theorem processorStep_buffer_le {F : Type} (bs : Nat) (hbs : 1 ≤ bs)
    (st : BatchState F) (ev : BatchEvent F) (h : st.buffer.length ≤ bs) :
    (processorStep false bs st ev).buffer.length ≤ bs := by
  unfold processorStep
  by_cases hex : st.exited = true
  · rw [if_pos hex]; exact h
  · rw [if_neg hex]
    have hpre : (if st.buffer.length ≥ bs ∧ ¬(false : Bool) = true then
        flush_records st else st).buffer.length + 1 ≤ bs := by
      by_cases hc : st.buffer.length ≥ bs
      · rw [if_pos ⟨hc, by simp⟩, flush_records_buffer]
        simpa using hbs
      · rw [if_neg (by simp [hc])]
        omega
    generalize hst : (if st.buffer.length ≥ bs ∧ ¬(false : Bool) = true then
        flush_records st else st) = st₁ at hpre ⊢
    cases ev with
    | recv row =>
      simp only [processorSelect, List.length_append, List.length_cons,
        List.length_nil]
      omega
    | tick intervalElapsed =>
      simp only [processorSelect]
      split
      · rw [flush_records_buffer]; simp
      · omega
    | close =>
      simp only [processorSelect]
      split
      · simp
      · show st₁.buffer.length ≤ bs
        omega

theorem runProcessor_buffer_le {F : Type} (bs : Nat) (hbs : 1 ≤ bs) :
    ∀ (evs : List (BatchEvent F)) (st : BatchState F),
      st.buffer.length ≤ bs →
      (evs.foldl (processorStep false bs) st).buffer.length ≤ bs := by
  intro evs
  induction evs with
  | nil => intro st h; exact h
  | cons ev evs ih =>
    intro st h
    exact ih _ (processorStep_buffer_le bs hbs st ev h)

/-- Claim C2 (corrected): when `skip_upload` is false and `batchSize ≥ 1`
(each deployed `FlushConfig` uses 500 000), every reachable buffer holds at
most `batchSize ≤ 2 × batchSize` rows.  The `2 ×` bound of the claim fails
only in `SKIP_UPLOAD` test mode, where no flush ever drains the buffer (see
the counterexample). -/
theorem batcher_buffer_bound {F : Type} (bs : Nat) (hbs : 1 ≤ bs)
    (evs : List (BatchEvent F)) :
    (runProcessor false bs evs).buffer.length ≤ 2 * bs := by
  have h := runProcessor_buffer_le bs hbs evs (BatchState.init F) (by simp [BatchState.init])
  unfold runProcessor
  omega

/-- Claim C2 counterexample: with `skip_upload` set (SKIP_UPLOAD=true) no
flush ever runs, so a batcher with `batchSize = 1` that receives three rows
holds 3 > 2 × 1 rows. -/
theorem batcher_buffer_bound_counterexample :
    (runProcessor (F := Nat) true 1
        [BatchEvent.recv 0, BatchEvent.recv 1, BatchEvent.recv 2]).buffer.length = 3 ∧
    ¬((runProcessor (F := Nat) true 1
        [BatchEvent.recv 0, BatchEvent.recv 1, BatchEvent.recv 2]).buffer.length ≤ 2 * 1) := by
  decide

/-- Witness for the amended claim C2 at a concrete run. -/
theorem batcher_buffer_bound_witness :
    (runProcessor (F := Nat) false 1
        [BatchEvent.recv 0, BatchEvent.recv 1, BatchEvent.recv 2]).buffer.length ≤ 2 * 1 :=
  batcher_buffer_bound 1 (by decide) [BatchEvent.recv 0, BatchEvent.recv 1, BatchEvent.recv 2]

theorem processorStep_noClose {F : Type} (skip : Bool) (bs : Nat)
    (st : BatchState F) (ev : BatchEvent F) (hev : ev ≠ .close)
    (hex : st.exited = false) :
    (processorStep skip bs st ev).exited = false ∧
    (processorStep skip bs st ev).finalFlushes = st.finalFlushes := by
  unfold processorStep
  rw [if_neg (by rw [hex]; simp)]
  have hpre : (if st.buffer.length ≥ bs ∧ ¬skip = true then flush_records st
      else st).exited = false ∧
      (if st.buffer.length ≥ bs ∧ ¬skip = true then flush_records st
      else st).finalFlushes = st.finalFlushes := by
    split
    · rw [flush_records_exited, flush_records_finalFlushes]
      exact ⟨hex, rfl⟩
    · exact ⟨hex, rfl⟩
  generalize hst : (if st.buffer.length ≥ bs ∧ ¬skip = true then
      flush_records st else st) = st₁ at hpre
  cases ev with
  | recv row => exact hpre
  | tick intervalElapsed =>
    simp only [processorSelect]
    split
    · rw [flush_records_exited, flush_records_finalFlushes]
      exact hpre
    · exact hpre
  | close => exact absurd rfl hev

theorem runProcessor_noClose {F : Type} (skip : Bool) (bs : Nat) :
    ∀ evs : List (BatchEvent F), (∀ e ∈ evs, e ≠ .close) →
      (runProcessor skip bs evs).exited = false ∧
      (runProcessor skip bs evs).finalFlushes = [] := by
  have aux : ∀ (evs : List (BatchEvent F)) (st : BatchState F),
      (∀ e ∈ evs, e ≠ .close) → st.exited = false →
      (evs.foldl (processorStep skip bs) st).exited = false ∧
      (evs.foldl (processorStep skip bs) st).finalFlushes = st.finalFlushes := by
    intro evs
    induction evs with
    | nil => intro st _ hex; exact ⟨hex, rfl⟩
    | cons ev evs ih =>
      intro st h hex
      have hev : ev ≠ .close := h ev (by simp)
      obtain ⟨h1, h2⟩ := processorStep_noClose skip bs st ev hev hex
      obtain ⟨h3, h4⟩ := ih (processorStep skip bs st ev)
        (fun e he => h e (by simp [he])) h1
      simp only [List.foldl_cons]
      exact ⟨h3, by rw [h4, h2]⟩
  intro evs h
  exact aux evs (BatchState.init F) h rfl

/-- Claim C3 (corrected): with `skip_upload` unset, closing the channel
while the buffer (after the closing iteration's pre-check) is non-empty
produces exactly one final flush whose batch is exactly that buffer, and no
final flush happens before closure.  With `skip_upload` set the final flush
is skipped entirely (see the counterexample). -/
theorem final_flush_on_close {F : Type} (bs : Nat) (evs : List (BatchEvent F))
    (hnc : ∀ e ∈ evs, e ≠ BatchEvent.close) (stPre : BatchState F)
    (hstPre : stPre =
      (if (runProcessor false bs evs).buffer.length ≥ bs then
        flush_records (runProcessor false bs evs)
       else runProcessor false bs evs))
    (hne : stPre.buffer.isEmpty = false) :
    (runProcessor false bs (evs ++ [BatchEvent.close])).finalFlushes =
      [stPre.buffer] ∧
    (runProcessor false bs evs).finalFlushes = [] := by
  obtain ⟨hex, hff⟩ := runProcessor_noClose false bs evs hnc
  refine ⟨?_, hff⟩
  have happ : runProcessor false bs (evs ++ [BatchEvent.close]) =
      processorStep false bs (runProcessor false bs evs) BatchEvent.close := by
    unfold runProcessor
    rw [List.foldl_append]
    rfl
  rw [happ]
  unfold processorStep
  rw [if_neg (by rw [hex]; simp)]
  have hstPre2 : (if (runProcessor false bs evs).buffer.length ≥ bs ∧
      ¬(false : Bool) = true then flush_records (runProcessor false bs evs)
     else runProcessor false bs evs) = stPre := by
    rw [hstPre]
    by_cases hc : (runProcessor false bs evs).buffer.length ≥ bs
    · rw [if_pos ⟨hc, by simp⟩, if_pos hc]
    · rw [if_neg (by simp [hc]), if_neg hc]
  rw [hstPre2]
  simp only [processorSelect]
  rw [if_pos ⟨hne, by simp⟩]
  have hffPre : stPre.finalFlushes = [] := by
    rw [hstPre]
    by_cases hc : (runProcessor false bs evs).buffer.length ≥ bs
    · rw [if_pos hc, flush_records_finalFlushes, hff]
    · rw [if_neg hc, hff]
  simp [hffPre]

/-- Claim C3 counterexample: with `skip_upload` set, the channel closes
while the buffer still holds the received row, yet zero final flush
attempts are made (the claim requires exactly one). -/
theorem final_flush_on_close_counterexample :
    (runProcessor (F := Nat) true 1 [BatchEvent.recv 0]).buffer = [0] ∧
    (runProcessor (F := Nat) true 1
        [BatchEvent.recv 0, BatchEvent.close]).finalFlushes = [] := by
  decide

/-- Witness for the amended claim C3 at a concrete run. -/
theorem final_flush_on_close_witness :
    (runProcessor (F := Nat) false 2
        [BatchEvent.recv 0, BatchEvent.close]).finalFlushes = [[0]] ∧
    (runProcessor (F := Nat) false 2 [BatchEvent.recv 0]).finalFlushes = [] := by
  have h := final_flush_on_close (F := Nat) 2 [BatchEvent.recv 0] (by decide)
    (runProcessor false 2 [BatchEvent.recv 0])
    (by rw [if_neg (by decide)]) (by decide)
  refine ⟨?_, h.2⟩
  have h1 := h.1
  simp only [List.cons_append, List.nil_append] at h1
  rw [h1]
  decide

/-- Claim C4 (corrected): when the writer fails the first five attempts,
`final_flush` makes exactly 5 attempts and then escalates to the fatal
`panic!`, but the backoff sleeps are `2, 4, 8, 16` seconds (no sleep after
the fifth failure), summing to 30 s — not the `2+4+8+16+32 = 62` s the
claim states. -/
theorem final_flush_five_attempts_then_fatal (writer : Nat → Bool)
    (hfail : ∀ i, i < 5 → writer i = false) :
    final_flush writer =
      { attempts := 5, sleeps := [2, 4, 8, 16], fatal := true } ∧
    ([2, 4, 8, 16] : List Nat).sum = 30 := by
  refine ⟨?_, by decide⟩
  unfold final_flush
  simp [final_flush_aux, hfail 0 (by omega), hfail 1 (by omega),
    hfail 2 (by omega), hfail 3 (by omega), hfail 4 (by omega)]

/-- Claim C4 counterexample: with a persistently failing writer the backoff
sleeps of `final_flush` sum to 30 seconds, strictly less than the
`2+4+8+16+32 = 62` seconds the claim requires. -/
theorem final_flush_backoff_counterexample :
    (final_flush (fun _ => false)).sleeps.sum = 30 ∧
    ¬((final_flush (fun _ => false)).sleeps.sum ≥ 2 + 4 + 8 + 16 + 32) ∧
    (final_flush (fun _ => false)).attempts = 5 ∧
    (final_flush (fun _ => false)).fatal = true := by
  decide

/-- Witness for the amended claim C4 with the always-failing writer. -/
theorem final_flush_five_attempts_then_fatal_witness :
    final_flush (fun _ => false) =
      { attempts := 5, sleeps := [2, 4, 8, 16], fatal := true } ∧
    ([2, 4, 8, 16] : List Nat).sum = 30 :=
  final_flush_five_attempts_then_fatal (fun _ => false) (fun _ _ => rfl)

theorem MetricInput.into_rows_of_valid (i : MetricInput)
    (enr : MetricEnrichment) (h : i.validate = .ok ()) :
    i.into_rows enr = .ok (i.data.map fun kv =>
      { time := i.time
        step := i.step
        log_group := log_group_from_log_name kv.1
        log_name := kv.1
        value := kv.2
        tenant_id := enr.tenant_id
        run_id := enr.run_id
        project_name := enr.project_name }) := by
  simp [MetricInput.into_rows, h]

/-- Claim C5 (confirmed): a valid `MetricInput` fans out to exactly one row
per `data` entry, each row carrying the full enrichment triple; a valid
`LogInput`, `DataInput` or `FileInput` produces exactly one row; and a
successful metrics stream reports the post-fan-out total as
`"Stream processed successfully: <N> records"` (`streamSuccessMessage`),
where `N` equals the number of rows enqueued. -/
theorem fan_out_totality :
    (∀ (i : MetricInput) (enr : MetricEnrichment), i.validate = .ok () →
      Except.map List.length (i.into_rows enr) = .ok i.data.length) ∧
    (∀ (i : MetricInput) (enr : MetricEnrichment), i.validate = .ok () →
      ∀ rows, i.into_rows enr = .ok rows → ∀ r ∈ rows,
        r.tenant_id = enr.tenant_id ∧ r.run_id = enr.run_id ∧
          r.project_name = enr.project_name) ∧
    (∀ (i : LogInput) (enr : LogEnrichment), i.validate = .ok () →
      Except.map List.length (i.into_rows enr) = .ok 1) ∧
    (∀ (i : DataInput) (enr : DataEnrichment), i.validate = .ok () →
      Except.map List.length (i.into_rows enr) = .ok 1) ∧
    (∀ (i : FileInput) (enr : FilesEnrichment),
      Except.map List.length (i.into_rows enr) = .ok 1) ∧
    (∀ (enr : MetricEnrichment) (lines : List (Option MetricInput))
        (rows : List MetricRow) (n : Nat),
      processLines MetricInput.validate (fun i => i.into_rows enr) lines =
        (rows, .ok n) →
      process_stream_metrics enr lines = (rows, .ok (streamSuccessMessage n)) ∧
        n = rows.length) := by
  refine ⟨?_, ?_, ?_, ?_, ?_, ?_⟩
  · intro i enr h
    rw [MetricInput.into_rows_of_valid i enr h]
    simp [Except.map]
  · intro i enr h rows hrows r hr
    rw [MetricInput.into_rows_of_valid i enr h] at hrows
    obtain rfl : _ = rows := Except.ok.inj hrows
    obtain ⟨kv, _, rfl⟩ := List.mem_map.mp hr
    exact ⟨rfl, rfl, rfl⟩
  · intro i enr h
    simp [LogInput.into_rows, LogRow.from, h, Except.map]
  · intro i enr h
    simp [DataInput.into_rows, DataRow.from, h, Except.map]
  · intro i enr
    rfl
  · intro enr lines rows n h
    refine ⟨?_, ?_⟩
    · simp only [process_stream_metrics, h]
    · exact processLinesAux_count MetricInput.validate
        (fun i => i.into_rows enr) lines [] 0 rfl rows n h

/-- Witness for claim C5 at the happy-path metrics scenario (§8, scenario
1): two entries fan out to two rows, and a successful two-record stream
reports "Stream processed successfully: 2 records". -/
theorem fan_out_totality_witness :
    Except.map List.length (happyMetricLine.into_rows exampleEnrichment) =
      .ok happyMetricLine.data.length ∧
    process_stream_metrics exampleEnrichment [some happyMetricLine] =
      ((processLines MetricInput.validate
          (fun i => i.into_rows exampleEnrichment) [some happyMetricLine]).1,
        .ok (streamSuccessMessage 2)) := by
  constructor
  · exact fan_out_totality.1 happyMetricLine exampleEnrichment rfl
  · exact (fan_out_totality.2.2.2.2.2 exampleEnrichment [some happyMetricLine]
      (processLines MetricInput.validate
        (fun i => i.into_rows exampleEnrichment) [some happyMetricLine]).1 2
      (by decide)).1

/-- Claim C6 (corrected): for the metrics, logs and data pipelines an
unparseable `X-Run-Id` value falls back to `runId = 0` via `unwrap_or(0)`,
but the files/presign enrichment (`FilesEnrichment::from_headers`) calls
`.unwrap()` on the parse result and panics instead. -/
theorem run_id_parse_fallback (tenant v p : String) (h : Headers)
    (hrun : h.xRunId = some v) (hparse : parse_u64 v = none)
    (hproj : h.xProjectName = some p) :
    MetricEnrichment.from_headers tenant h =
      .ok { tenant_id := tenant, run_id := 0, project_name := p } ∧
    LogEnrichment.from_headers tenant h =
      .ok { tenant_id := tenant, run_id := 0, project_name := p } ∧
    DataEnrichment.from_headers tenant h =
      .ok { tenant_id := tenant, run_id := 0, project_name := p } ∧
    (FilesEnrichment.from_headers tenant h).isPanicked = true := by
  refine ⟨?_, ?_, ?_, ?_⟩
  · simp [MetricEnrichment.from_headers, hrun, hparse, hproj]
    rfl
  · simp [LogEnrichment.from_headers, hrun, hparse, hproj]
    rfl
  · simp [DataEnrichment.from_headers, hrun, hparse, hproj]
    rfl
  · simp [FilesEnrichment.from_headers, hrun, hparse, RustOutcome.isPanicked]

/-- Claim C6 counterexample: on a presign request whose `X-Run-Id` is
`"abc"` the enrichment extraction panics — it neither succeeds nor yields
`runId = 0` as the claim requires. -/
theorem run_id_parse_fallback_counterexample :
    (FilesEnrichment.from_headers "t" badRunIdHeaders).isPanicked = true ∧
    FilesEnrichment.from_headers "t" badRunIdHeaders ≠
      .ok { tenant_id := "t", run_id := 0, project_name := "p" } := by
  decide

/-- Witness for the amended claim C6 at the concrete headers. -/
theorem run_id_parse_fallback_witness :
    MetricEnrichment.from_headers "t" badRunIdHeaders =
      .ok { tenant_id := "t", run_id := 0, project_name := "p" } ∧
    LogEnrichment.from_headers "t" badRunIdHeaders =
      .ok { tenant_id := "t", run_id := 0, project_name := "p" } ∧
    DataEnrichment.from_headers "t" badRunIdHeaders =
      .ok { tenant_id := "t", run_id := 0, project_name := "p" } ∧
    (FilesEnrichment.from_headers "t" badRunIdHeaders).isPanicked = true :=
  run_id_parse_fallback "t" "abc" "p" badRunIdHeaders rfl (by decide) rfl

/-- Claim C7 (corrected): for every chunked byte stream the decoder yields
exactly the `\n`-separated segments (unterminated remainder last), each
trimmed and skipped-when-empty — but the trim is asymmetric: the leading
scan removes only space and tab (`trimCode`), while only the trailing scan
removes the full class space, tab, `\r`, `\n`.  The claim's symmetric
four-character trim (`trimFull`) does not match the code (see the
counterexample: a leading `\r` survives). -/
theorem stream_decoder_lines (chunks : List (List Nat)) :
    decodeChunks chunks = linesPerCode chunks.flatten := by
  unfold decodeChunks
  exact decodeCore_eq chunks [] (by simp)

/-- Claim C7 counterexample: on the single-chunk body `"\rA\n"` the decoder
yields the line `"\rA"` (leading `\r` kept), while the claim's symmetric
trim would yield `"A"`. -/
theorem stream_decoder_trim_counterexample :
    decodeChunks [[13, 65, 10]] = [[13, 65]] ∧
    (specSegments ([[13, 65, 10]] : List (List Nat)).flatten).filterMap
        trimFull = [[65]] ∧
    ([[13, 65]] : List (List Nat)) ≠ [[65]] := by
  decide

/-- Claim C8 (corrected): after the code trims leading/trailing whitespace
from the characters following `"Bearer "`, an empty token or a token with a
character outside ASCII-alphanumeric, `-`, `_`, `.` is rejected with a 401
before the database lookup (`auth_check` returns before the lookup on every
error).  The claim as stated — on the UNtrimmed remainder — fails: a token
with surrounding whitespace is accepted (see the counterexample). -/
theorem auth_rejects_bad_token (cs : List Char)
    (hb : cs.take 7 = "Bearer ".toList)
    (hbad : rustTrim (cs.drop 7) = [] ∨
      ∃ c ∈ rustTrim (cs.drop 7), validTokenChar c = false) :
    ∃ e, auth_check (some cs) = .error e ∧ e.code.statusCode = 401 := by
  unfold auth_check
  dsimp only
  rw [if_pos hb]
  by_cases hemp : (rustTrim (cs.drop 7)).isEmpty = true
  · rw [if_pos hemp]
    exact ⟨invalid_auth_error "Bearer token cannot be empty", rfl, rfl⟩
  · rw [if_neg hemp]
    have hwit : ∃ c ∈ rustTrim (cs.drop 7), validTokenChar c = false := by
      rcases hbad with hnil | hwit
      · exact absurd (by rw [hnil]; rfl) hemp
      · exact hwit
    have hall : (rustTrim (cs.drop 7)).all validTokenChar = false := by
      rw [List.all_eq_false]
      obtain ⟨c, hc, hv⟩ := hwit
      exact ⟨c, hc, by simp [hv]⟩
    rw [if_pos (by rw [hall]; rfl)]
    exact ⟨AppError.new .invalidTokenFormat
      "Bearer token contains invalid characters", rfl, rfl⟩

/-- Claim C8 counterexample: `"Bearer abc "` — the remainder `"abc "`
contains a space, which is not one of the allowed characters, so the claim
requires a 401; the code trims the token to `"abc"` and accepts it,
proceeding to the database lookup. -/
theorem auth_rejects_bad_token_counterexample :
    auth_check (some ("Bearer abc ".toList)) = .ok ("abc".toList) ∧
    ' ' ∈ ("Bearer abc ".toList).drop 7 ∧
    validTokenChar ' ' = false := by
  decide

/-- Witness for the amended claim C8 at a concrete bad token. -/
theorem auth_rejects_bad_token_witness :
    ∃ e, auth_check (some ("Bearer a@b".toList)) = .error e ∧
      e.code.statusCode = 401 :=
  auth_rejects_bad_token ("Bearer a@b".toList) (by decide)
    (Or.inr ⟨'@', by decide, by decide⟩)

/-- Claim C9 (corrected): `MetricInput`, `LogInput` and `DataInput` carry
`deny_unknown_fields` and reject any object with a field outside their
declared set, but `FileInput` does not: the unknown field `extra` is
silently ignored and the parse succeeds. -/
theorem unknown_field_policy :
    (∀ (fields : List (String × JVal)) (k : String) (v : JVal),
      (k, v) ∈ fields → k ≠ "time" → k ≠ "step" → k ≠ "data" →
      parseMetricInput fields = none) ∧
    (∀ (fields : List (String × JVal)) (k : String) (v : JVal),
      (k, v) ∈ fields → k ≠ "time" → k ≠ "message" → k ≠ "lineNumber" →
      k ≠ "logType" → parseLogInput fields = none) ∧
    (∀ (fields : List (String × JVal)) (k : String) (v : JVal),
      (k, v) ∈ fields → k ≠ "time" → k ≠ "data" → k ≠ "step" →
      k ≠ "dataType" → k ≠ "logName" → parseDataInput fields = none) ∧
    parseFileInput fileObjWithUnknownField =
      some { log_name := "a", file_name := "b", file_type := "png",
             time := 1, step := 0, file_size := 10 } := by
  refine ⟨?_, ?_, ?_, by decide⟩
  · intro fields k v hmem h1 h2 h3
    have hall : fields.all (fun kv =>
        kv.1 == "time" || kv.1 == "step" || kv.1 == "data") = false := by
      rw [List.all_eq_false]
      exact ⟨(k, v), hmem, by simp [h1, h2, h3]⟩
    simp [parseMetricInput, hall]
  · intro fields k v hmem h1 h2 h3 h4
    have hall : fields.all (fun kv =>
        kv.1 == "time" || kv.1 == "message" || kv.1 == "lineNumber" ||
          kv.1 == "logType") = false := by
      rw [List.all_eq_false]
      exact ⟨(k, v), hmem, by simp [h1, h2, h3, h4]⟩
    simp [parseLogInput, hall]
  · intro fields k v hmem h1 h2 h3 h4 h5
    have hall : fields.all (fun kv =>
        kv.1 == "time" || kv.1 == "data" || kv.1 == "step" ||
          kv.1 == "dataType" || kv.1 == "logName") = false := by
      rw [List.all_eq_false]
      exact ⟨(k, v), hmem, by simp [h1, h2, h3, h4, h5]⟩
    simp [parseDataInput, hall]

/-- Claim C9 counterexample: a `FileInput` JSON object with the unknown
field `extra` parses successfully (the claim requires a parse error for
every one of the four input types). -/
theorem unknown_field_policy_counterexample :
    parseFileInput fileObjWithUnknownField =
      some { log_name := "a", file_name := "b", file_type := "png",
             time := 1, step := 0, file_size := 10 } := by
  decide

/-- Witness for the amended claim C9 at a concrete unknown-field object. -/
theorem unknown_field_policy_witness :
    parseMetricInput [("bogus", JVal.jnum 1)] = none ∧
    parseLogInput [("bogus", JVal.jnum 1)] = none ∧
    parseDataInput [("bogus", JVal.jnum 1)] = none :=
  ⟨unknown_field_policy.1 [("bogus", JVal.jnum 1)] "bogus" (JVal.jnum 1)
      (by simp) (by decide) (by decide) (by decide),
   unknown_field_policy.2.1 [("bogus", JVal.jnum 1)] "bogus" (JVal.jnum 1)
      (by simp) (by decide) (by decide) (by decide) (by decide),
   unknown_field_policy.2.2.1 [("bogus", JVal.jnum 1)] "bogus" (JVal.jnum 1)
      (by simp) (by decide) (by decide) (by decide) (by decide) (by decide)⟩

/-- Claim C10 (corrected): the parse-then-serialize round trip holds for
the `{ "custom": "<mime>" }` object form and for every known extension
whose serde `snake_case` name equals the extension itself — all of §4.7's
extensions except `yml` (parses to `Yaml`, serializes `"yaml"`), `tflite`
(serializes `"tf_lite"`) and `savedmodel` (serializes `"saved_model"`). -/
theorem file_type_round_trip :
    (∀ e ∈ roundTrippingExtensions,
      fileTypeRoundTrip (.jstr e) = some (.jstr e)) ∧
    (∀ m : String, fileTypeRoundTrip (.jobj [("custom", .jstr m)]) =
      some (.jobj [("custom", .jstr m)])) := by
  constructor
  · intro e he
    fin_cases he <;> rfl
  · intro m
    rfl

/-- Claim C10 counterexample: the known extension `"tflite"` deserializes
to `TfLite` but serializes back as `"tf_lite"`, so the round trip does not
return the original value. -/
theorem file_type_round_trip_counterexample :
    fileTypeRoundTrip (.jstr "tflite") = some (.jstr "tf_lite") ∧
    ("tf_lite" : String) ≠ "tflite" ∧
    fileTypeRoundTrip (.jstr "tflite") ≠ some (.jstr "tflite") := by
  refine ⟨rfl, by decide, ?_⟩
  intro h
  rw [show fileTypeRoundTrip (.jstr "tflite") = some (.jstr "tf_lite")
    from rfl] at h
  simp only [Option.some.injEq, JVal.jstr.injEq] at h
  exact absurd h (by decide)

/-- Witness for the amended claim C10 at a concrete extension and a
concrete custom MIME object. -/
theorem file_type_round_trip_witness :
    fileTypeRoundTrip (.jstr "png") = some (.jstr "png") ∧
    fileTypeRoundTrip (.jobj [("custom", .jstr "application/zip")]) =
      some (.jobj [("custom", .jstr "application/zip")]) :=
  ⟨file_type_round_trip.1 "png" (by decide),
   file_type_round_trip.2 "application/zip"⟩
